import Mathlib

/-!
Shallow embedding of `src/server.rs` of the edl-server repository: the HTTP-style
request protocol layer and decode-control state machine.  Pure data is embedded
directly; the stateful route handlers become explicit state-passing functions on
a `Context` value; the external collaborators (LTC decode handle, cut log, EDL
writer, the `httparse` header parser and `serde_json`) are modelled from the
spec at their interface boundary, as marked in the doc comments below.
-/

namespace EdlServer

/-- Modelled from the spec: a timecode frame produced by the external LTC decode
backend (`ltc_decode` is not part of the served sources); `tc` stands for the
displayed timecode text returned by the frame's `timecode()` accessor. -/
structure Frame where
  tc : String
deriving DecidableEq

/-- Modelled from the spec: the `AVChannels` enum of the `edl` module
(not part of the served sources); spec section 3 lists AUDIO, VIDEO, BOTH. -/
inductive AVChannels where
  | audio
  | video
  | both
deriving DecidableEq

/-- Modelled from the spec: a Cut Record as appended to the cut log on every
successful frame acquisition (the `cut_log` module is not part of the served
sources): timecode plus the payload's edit type, source tape and channel. -/
structure CutRecord where
  timecode : Frame
  edit_type : String
  source_tape : String
  av_channel : AVChannels
deriving DecidableEq

/-- Modelled from the spec: an Edit is derived from exactly two adjacent Cut
Records, a previous (popped) one and a current (front) one. -/
structure Edit where
  prev : CutRecord
  curr : CutRecord
deriving DecidableEq

/-- Modelled from the spec: `Edit::from_cuts(previous, current)` returns a
`Result`; no failure condition is specified, so it is modelled as total. -/
def Edit.from_cuts (p c : CutRecord) : Except String Edit :=
  .ok ⟨p, c⟩

/-- Modelled from the spec: the cut log behaves as a queue on which newest
entries are pushed at one end; head of the list is the oldest entry. -/
def CutLog := List CutRecord

instance : DecidableEq CutLog := inferInstanceAs (DecidableEq (List CutRecord))

/-- Modelled from the spec: `push` appends the newest record.  The interface
returns a `Result` but no failure condition is specified, so it is total here. -/
def CutLog.push (log : CutLog) (r : CutRecord) : CutLog :=
  List.append log [r]

/-- Modelled from the spec: `pop` removes and returns the oldest remaining entry. -/
def CutLog.pop (log : CutLog) : Option (CutRecord × CutLog) :=
  match log with
  | [] => none
  | r :: rest => some (r, rest)

/-- Modelled from the spec: `front` peeks the current newest entry without
removing it. -/
def CutLog.front (log : CutLog) : Option CutRecord :=
  List.getLast? log

/-- Modelled from the spec: `clear` empties the log. -/
def CutLog.clear (_ : CutLog) : CutLog :=
  []

/-- Modelled from the spec: `DecodeErr` distinguishes the "no frame yet"
condition (`NoVal`) from all other decode-handle errors. -/
inductive DecodeErr where
  | noVal (msg : String)
  | other (msg : String)
deriving DecidableEq

/-- Modelled from the spec: the decode-control handle over the frame channel
(`ltc_decode` is not part of the served sources).  `on` is the decode on/off
switch; `frames` the pending frames of the single-producer channel; the three
`Option String` fields let a run be configured with a failing collaborator
operation, since each interface operation returns a `Result`. -/
structure DecodeHandlers where
  isOn : Bool
  frames : List Frame
  onErr : Option String
  offErr : Option String
  recvErr : Option String
deriving DecidableEq

/-- Modelled from the spec: `decode_on() -> Result<(), Err>`. -/
def DecodeHandlers.decode_on (d : DecodeHandlers) : Except String DecodeHandlers :=
  match d.onErr with
  | some e => .error e
  | none => .ok { d with isOn := true }

/-- Modelled from the spec: `decode_off() -> Result<(), Err>`. -/
def DecodeHandlers.decode_off (d : DecodeHandlers) : Except String DecodeHandlers :=
  match d.offErr with
  | some e => .error e
  | none => .ok { d with isOn := false }

/-- Outcome of the blocking receive: a frame, a channel error, or suspension of
the whole request loop because no frame ever arrives. -/
inductive RecvOut where
  | got (f : Frame) (d : DecodeHandlers)
  | failedRecv (e : String)
  | wouldBlock
deriving DecidableEq

/-- Modelled from the spec: `recv_frame()` is the blocking receive used by
`/start`; with no pending frame it suspends the request loop. -/
def DecodeHandlers.recv_frame (d : DecodeHandlers) : RecvOut :=
  match d.recvErr with
  | some e => .failedRecv e
  | none =>
    match d.frames with
    | [] => .wouldBlock
    | f :: fs => .got f { d with frames := fs }

/-- Modelled from the spec: `try_recv_frame()` is the non-blocking receive used
by `/log` and `/stop`; an empty channel reports the `NoVal` condition. -/
def DecodeHandlers.try_recv_frame (d : DecodeHandlers) :
    Except DecodeErr (Frame × DecodeHandlers) :=
  match d.recvErr with
  | some e => .error (.other e)
  | none =>
    match d.frames with
    | [] => .error (.noVal "no value available")
    | f :: fs => .ok (f, { d with frames := fs })

/-- Modelled from the spec: the EDL writer (`edl` module is not part of the
served sources).  `written` records the edits forwarded so far; `writeErr`
configures a failing write; the confirmation text returned on success is
abstracted as a fixed string. -/
structure Edl where
  written : List Edit
  writeErr : Option String
deriving DecidableEq

/-- Modelled from the spec: `write_from_edit(Edit) -> Result<ConfirmationText, Err>`. -/
def Edl.write_from_edit (edl : Edl) (e : Edit) : Except String (String × Edl) :=
  match edl.writeErr with
  | some m => .error m
  | none => .ok ("edit logged", { edl with written := List.append edl.written [e] })

/-- The shared mutable session context of `server.rs`: cut log, decode handle
and EDL writer (struct `Context`). -/
structure Context where
  cut_log : CutLog
  decode_handlers : DecodeHandlers
  edl : Edl
deriving DecidableEq

/-- The `Response` struct of `server.rs`: textual content plus a status line. -/
structure Response where
  content : String
  status_line : String
deriving DecidableEq

/-- The decoded Edit Request Payload (struct `EditRequestData`). -/
structure EditRequestData where
  edit_type : String
  source_tape : String
  av_channel : AVChannels
deriving DecidableEq

/-- A lowercase hexadecimal digit, as emitted by the JSON and Rust debug
escapers. -/
def hexDigitChar (n : Nat) : Char :=
  if n < 10 then Char.ofNat (48 + n) else Char.ofNat (87 + n)

/-- Embedding of Rust's `{:#?}` debug formatting of a string (used by
`From<String> for Response`): the text is wrapped in quotes with quote,
backslash and control characters escaped. -/
def rustEscapeChar (c : Char) : List Char :=
  if c = '"' then ['\\', '"']
  else if c = '\\' then ['\\', '\\']
  else if c = Char.ofNat 10 then ['\\', 'n']
  else if c = Char.ofNat 13 then ['\\', 'r']
  else if c = Char.ofNat 9 then ['\\', 't']
  else if c.toNat < 32 then
    ['\\', 'u', Char.ofNat 123] ++
      (if c.toNat < 16 then [hexDigitChar c.toNat]
       else [hexDigitChar (c.toNat / 16), hexDigitChar (c.toNat % 16)]) ++
      [Char.ofNat 125]
  else [c]

/-- Rust `format!("{:#?}", s)` for a `String` value `s`. -/
def rustDebugString (s : String) : String :=
  String.mk ('"' :: List.append (s.data.foldr (fun c acc => List.append (rustEscapeChar c) acc) []) ['"'])

/-- The `From<String> for Response` impl of `server.rs`: content is the
debug-formatted string, status line is 200 OK. -/
def Response.ofString (value : String) : Response :=
  { content := rustDebugString value, status_line := "HTTP/1.1 200 OK" }

/-- The `frame_unavailable()` response of `server.rs`. -/
def frame_unavailable : Response :=
  { status_line := "HTTP/1.1 200 OK"
    content := "Unable to get timecode. Make sure source is streaming and decoding has started." }

/-- The `server_err()` response of `server.rs`. -/
def server_err : Response :=
  { status_line := "HTTP/1.1 500 INTERNAL SERVER ERROR"
    content := "Failed to parse request" }

/-- The `not_found()` response of `server.rs`. -/
def not_found : Response :=
  { status_line := "HTTP/1.1 404 NOT FOUND"
    content := "Command not found" }

/-- Outcome of routing one request: a response or an error (each with the
session context as mutated so far), a Rust panic (out-of-range body slice), or
suspension on the blocking frame receive. -/
inductive RouteOut where
  | ok (resp : Response) (c : Context)
  | err (e : String) (c : Context)
  | panicked (msg : String) (c : Context)
  | blocked (c : Context)
deriving DecidableEq

/-- The session context carried by a routing outcome. -/
def RouteOut.ctx : RouteOut → Context
  | .ok _ c => c
  | .err _ c => c
  | .panicked _ c => c
  | .blocked c => c

/-- `EditRequestData::wait_for_first_frame` of `server.rs`: blocking-receive one
frame, push it into the cut log with the payload's metadata, report the
timecode. -/
def EditRequestData.wait_for_first_frame (d : EditRequestData) (ctx : Context) : RouteOut :=
  match ctx.decode_handlers.recv_frame with
  | .failedRecv e => .err e ctx
  | .wouldBlock => .blocked ctx
  | .got tc dh =>
    let record : CutRecord := ⟨tc, d.edit_type, d.source_tape, d.av_channel⟩
    .ok (Response.ofString (String.append "timecode logged: " (rustDebugString tc.tc)))
      { ctx with decode_handlers := dh, cut_log := CutLog.push ctx.cut_log record }

/-- `EditRequestData::parse_edit_from_log` of `server.rs`: non-blocking receive,
push the new Cut Record, pop the previous (oldest) record, peek the current
newest record, and construct an Edit from the pair.  The context is returned on
every branch, reflecting the in-place mutation of the Rust original. -/
def EditRequestData.parse_edit_from_log (d : EditRequestData) (ctx : Context) :
    Except DecodeErr Edit × Context :=
  match ctx.decode_handlers.try_recv_frame with
  | .error e => (.error e, ctx)
  | .ok (tc, dh) =>
    let ctx1 : Context :=
      { ctx with decode_handlers := dh
                 cut_log := CutLog.push ctx.cut_log ⟨tc, d.edit_type, d.source_tape, d.av_channel⟩ }
    match CutLog.pop ctx1.cut_log with
    | none => (.error (.other "No value in cut_log"), ctx1)
    | some (prev_record, rest) =>
      let ctx2 : Context := { ctx1 with cut_log := rest }
      match CutLog.front ctx2.cut_log with
      | none => (.error (.other "No value in cut_log"), ctx2)
      | some curr_record =>
        match Edit.from_cuts prev_record curr_record with
        | .error e => (.error (.other e), ctx2)
        | .ok edit => (.ok edit, ctx2)

/-- `EditRequestData::try_log_edit` of `server.rs`: on success forward the edit
to the EDL writer; the `NoVal` condition becomes the friendly
`frame_unavailable` response; any other decode error propagates as a failure. -/
def EditRequestData.try_log_edit (d : EditRequestData) (ctx : Context) :
    Except String Response × Context :=
  match d.parse_edit_from_log ctx with
  | (.ok edit, ctx2) =>
    match ctx2.edl.write_from_edit edit with
    | .error e => (.error e, ctx2)
    | .ok (txt, edl2) => (.ok (Response.ofString txt), { ctx2 with edl := edl2 })
  | (.error (DecodeErr.noVal _), ctx2) => (.ok frame_unavailable, ctx2)
  | (.error (DecodeErr.other e), ctx2) => (.error e, ctx2)

/-- Embedding of `serde_json::to_string` on a `String` value (used by
`Response::parse_to_json`): escape the quote, the backslash, and every control
character below 0x20 (with the usual short escapes and `\u00XX` otherwise). -/
def jsonEscapeChar (c : Char) : List Char :=
  if c = '"' then ['\\', '"']
  else if c = '\\' then ['\\', '\\']
  else if 32 ≤ c.toNat then [c]
  else if c.toNat = 8 then ['\\', 'b']
  else if c.toNat = 9 then ['\\', 't']
  else if c.toNat = 10 then ['\\', 'n']
  else if c.toNat = 12 then ['\\', 'f']
  else if c.toNat = 13 then ['\\', 'r']
  else ['\\', 'u', '0', '0', hexDigitChar (c.toNat / 16), hexDigitChar (c.toNat % 16)]

/-- JSON-escape a character sequence. -/
def jsonEscapeList (cs : List Char) : List Char :=
  cs.foldr (fun c acc => List.append (jsonEscapeChar c) acc) []

/-- JSON-quote a string: surrounding quotes plus escaped content. -/
def jsonQuoteString (s : String) : String :=
  String.mk ('"' :: List.append (jsonEscapeList s.data) ['"'])

/-- Numeric value of one hexadecimal digit character (either case). -/
def hexCharVal (c : Char) : Option Nat :=
  if 48 ≤ c.toNat ∧ c.toNat ≤ 57 then some (c.toNat - 48)
  else if 97 ≤ c.toNat ∧ c.toNat ≤ 102 then some (c.toNat - 87)
  else if 65 ≤ c.toNat ∧ c.toNat ≤ 70 then some (c.toNat - 55)
  else none

/-- Parse the inside of a JSON string: consume characters and escape sequences
up to the closing quote; return the decoded content and the remaining input. -/
def jsonUnescape : List Char → Option (List Char × List Char)
  | [] => none
  | c :: rest =>
    if c = '"' then some ([], rest)
    else if c = '\\' then
      match rest with
      | [] => none
      | e :: rest2 =>
        if e = '"' then (fun p => ('"' :: p.1, p.2)) <$> jsonUnescape rest2
        else if e = '\\' then (fun p => ('\\' :: p.1, p.2)) <$> jsonUnescape rest2
        else if e = '/' then (fun p => ('/' :: p.1, p.2)) <$> jsonUnescape rest2
        else if e = 'b' then (fun p => (Char.ofNat 8 :: p.1, p.2)) <$> jsonUnescape rest2
        else if e = 't' then (fun p => (Char.ofNat 9 :: p.1, p.2)) <$> jsonUnescape rest2
        else if e = 'n' then (fun p => (Char.ofNat 10 :: p.1, p.2)) <$> jsonUnescape rest2
        else if e = 'f' then (fun p => (Char.ofNat 12 :: p.1, p.2)) <$> jsonUnescape rest2
        else if e = 'r' then (fun p => (Char.ofNat 13 :: p.1, p.2)) <$> jsonUnescape rest2
        else if e = 'u' then
          match rest2 with
          | h1 :: h2 :: h3 :: h4 :: rest3 =>
            match hexCharVal h1, hexCharVal h2, hexCharVal h3, hexCharVal h4 with
            | some v1, some v2, some v3, some v4 =>
              (fun p => (Char.ofNat (((v1 * 16 + v2) * 16 + v3) * 16 + v4) :: p.1, p.2)) <$>
                jsonUnescape rest3
            | _, _, _, _ => none
          | _ => none
        else none
    else (fun p => (c :: p.1, p.2)) <$> jsonUnescape rest

/-- Parse a complete JSON-quoted string back to its content. -/
def jsonUnquoteString (s : String) : Option String :=
  match s.data with
  | '"' :: rest =>
    match jsonUnescape rest with
    | some (cs, []) => some (String.mk cs)
    | _ => none
  | _ => none

/-- `Response::parse_to_json` of `server.rs`: replace the content with its
JSON-quoted form (`serde_json::to_string` of a string value never fails, so the
error branch of the Rust original is unreachable in this embedding). -/
def Response.parse_to_json (r : Response) : Except String Response :=
  .ok { r with content := jsonQuoteString r.content }

/-- The `SerializedResponse` struct of `server.rs`. -/
structure SerializedResponse where
  value : String
deriving DecidableEq

/-- The `From<Response> for SerializedResponse` impl of `server.rs`:
`Content-Length` is the byte length of the (already JSON-quoted) content. -/
def SerializedResponse.ofResponse (r : Response) : SerializedResponse :=
  { value := String.append r.status_line
      (String.append "\r\nContent-Type: application/json\r\nContent-Length: "
        (String.append (toString r.content.utf8ByteSize)
          (String.append "\r\n\r\n" r.content))) }

/-- Standard UTF-8 encoding of one character. -/
def utf8EncodeChar (c : Char) : List Nat :=
  let n := c.toNat
  if n < 128 then [n]
  else if n < 2048 then [192 + n / 64, 128 + n % 64]
  else if n < 65536 then [224 + n / 4096, 128 + (n / 64) % 64, 128 + n % 64]
  else [240 + n / 262144, 128 + (n / 4096) % 64, 128 + (n / 64) % 64, 128 + n % 64]

/-- UTF-8 encoding of a string as a byte list. -/
def strToBytes (s : String) : List Nat :=
  s.data.foldr (fun c acc => List.append (utf8EncodeChar c) acc) []

/-- Strict UTF-8 decoding (as `std::str::from_utf8`): rejects stray
continuation bytes, overlong forms and surrogate code points. -/
def utf8DecodeList : List Nat → Option (List Char)
  | [] => some []
  | b :: rest =>
    if b < 128 then (fun cs => Char.ofNat b :: cs) <$> utf8DecodeList rest
    else if b < 194 then none
    else if b < 224 then
      match rest with
      | b2 :: rest2 =>
        if 128 ≤ b2 ∧ b2 < 192 then
          (fun cs => Char.ofNat ((b - 192) * 64 + (b2 - 128)) :: cs) <$> utf8DecodeList rest2
        else none
      | [] => none
    else if b < 240 then
      match rest with
      | b2 :: b3 :: rest2 =>
        let lo2 := if b = 224 then 160 else 128
        let hi2 := if b = 237 then 160 else 192
        if lo2 ≤ b2 ∧ b2 < hi2 ∧ 128 ≤ b3 ∧ b3 < 192 then
          (fun cs => Char.ofNat ((b - 224) * 4096 + (b2 - 128) * 64 + (b3 - 128)) :: cs) <$>
            utf8DecodeList rest2
        else none
      | _ => none
    else if b < 245 then
      match rest with
      | b2 :: b3 :: b4 :: rest2 =>
        let lo2 := if b = 240 then 144 else 128
        let hi2 := if b = 244 then 144 else 192
        if lo2 ≤ b2 ∧ b2 < hi2 ∧ 128 ≤ b3 ∧ b3 < 192 ∧ 128 ≤ b4 ∧ b4 < 192 then
          (fun cs =>
              Char.ofNat ((b - 240) * 262144 + (b2 - 128) * 4096 + (b3 - 128) * 64 + (b4 - 128)) :: cs) <$>
            utf8DecodeList rest2
        else none
      | _ => none
    else none

/-- Decode a byte list as UTF-8 text. -/
def utf8Decode (bs : List Nat) : Option String :=
  String.mk <$> utf8DecodeList bs

/-- Embedding of Rust's `str::parse::<usize>`: optional leading plus sign then
one or more decimal digits (overflow of the machine word is not modelled; no
claim depends on it). -/
def parseUsize (s : String) : Option Nat :=
  let ds := match s.data with
    | '+' :: rest => rest
    | l => l
  if ds.isEmpty then none
  else if ds.all (fun c => 48 ≤ c.toNat && c.toNat ≤ 57) then
    some (ds.foldl (fun acc c => acc * 10 + (c.toNat - 48)) 0)
  else none

/-- JSON whitespace skipping. -/
def skipWs (l : List Char) : List Char :=
  l.dropWhile (fun c => c == ' ' || c == Char.ofNat 9 || c == Char.ofNat 10 || c == Char.ofNat 13)

/-- Parse one JSON string token, returning it and the remaining input. -/
def parseJStringTok (l : List Char) : Option (String × List Char) :=
  match l with
  | '"' :: rest => (fun p => (String.mk p.1, p.2)) <$> jsonUnescape rest
  | _ => none

/-- Parse the members of a JSON object whose values are all strings, after the
opening brace and any whitespace; the fuel argument bounds the recursion. -/
def parseMembers : Nat → List Char → Option (List (String × String) × List Char)
  | 0, _ => none
  | fuel + 1, l => do
    let (k, r1) ← parseJStringTok l
    match skipWs r1 with
    | ':' :: r3 =>
      let (v, r5) ← parseJStringTok (skipWs r3)
      match skipWs r5 with
      | ',' :: r7 =>
        let (ms, r8) ← parseMembers fuel (skipWs r7)
        some ((k, v) :: ms, r8)
      | c :: r8 => if c = Char.ofNat 125 then some ([(k, v)], r8) else none
      | [] => none
    | _ => none

/-- Modelled from the spec: the serde enum representation of `AVChannels`
(the `edl` module is not part of the served sources); spec section 3 lists
the variants AUDIO, VIDEO, BOTH. -/
def avOfString (s : String) : Option AVChannels :=
  if s = "AUDIO" then some .audio
  else if s = "VIDEO" then some .video
  else if s = "BOTH" then some .both
  else none

/-- Modelled from the spec: `serde_json::from_str::<EditRequestData>`, the
external JSON decoding of the Edit Request Payload.  Accepts a JSON object with
string values, requires the three fields `edit_type`, `source_tape` and
`av_channel` (first occurrence wins) and ignores unknown fields, per serde's
defaults. -/
def jsonDecodeEdit (s : String) : Option EditRequestData := do
  match skipWs s.data with
  | c :: r =>
    if c = Char.ofNat 123 then
      let (ms, rest) ←
        (match skipWs r with
         | c2 :: r2 =>
           if c2 = Char.ofNat 125 then some (([] : List (String × String)), r2)
           else parseMembers (s.data.length + 1) (skipWs r)
         | [] => none)
      if skipWs rest = [] then
        let et ← (ms.lookup "edit_type")
        let st ← (ms.lookup "source_tape")
        let avs ← (ms.lookup "av_channel")
        let av ← avOfString avs
        some ⟨et, st, av⟩
      else none
    else none
  | [] => none

/-- One parsed HTTP header: a text name and a raw byte value. -/
structure HttpHeader where
  name : String
  value : List Nat
deriving DecidableEq

/-- Outcome of the external header parse, mirroring `httparse::Status`:
complete with the byte offset where headers end, incomplete, or a parse error. -/
inductive ParseStatus where
  | complete (header_offset : Nat)
  | incomplete
  | failed (e : String)
deriving DecidableEq

/-- The raw request data produced by the header parse. -/
structure ParsedReq where
  method : Option String
  path : Option String
  headers : List HttpHeader
  status : ParseStatus
deriving DecidableEq

/-- Take one CRLF-terminated line off a byte list. -/
def takeLine : List Nat → Option (List Nat × List Nat)
  | [] => none
  | 13 :: 10 :: rest => some ([], rest)
  | b :: rest => (fun p => (b :: p.1, p.2)) <$> takeLine rest

/-- Split a buffer into the CRLF-terminated lines before the blank line ending
the header block; the second component is the remainder after that blank line,
or `none` when the header block does not terminate within the buffer. -/
def splitLinesFuel : Nat → List Nat → List (List Nat) × Option (List Nat)
  | 0, _ => ([], none)
  | fuel + 1, bytes =>
    match takeLine bytes with
    | none => ([], none)
    | some ([], rest) => ([], some rest)
    | some (line, rest) =>
      let p := splitLinesFuel fuel rest
      (line :: p.1, p.2)

/-- Split a buffer into header-block lines and the remaining body bytes. -/
def splitLines (bytes : List Nat) : List (List Nat) × Option (List Nat) :=
  splitLinesFuel (bytes.length + 1) bytes

/-- HTTP token bytes, as validated for method and header names. -/
def isTokenByte (b : Nat) : Bool :=
  (48 ≤ b && b ≤ 57) || (65 ≤ b && b ≤ 90) || (97 ≤ b && b ≤ 122) ||
    [33, 35, 36, 37, 38, 39, 42, 43, 45, 46, 94, 95, 96, 124, 126].contains b

/-- Interpret a list of ASCII bytes as text. -/
def asciiStr (bs : List Nat) : String :=
  String.mk (bs.map Char.ofNat)

/-- Split a byte list at every occurrence of a separator byte. -/
def splitByte (sep : Nat) : List Nat → List (List Nat)
  | [] => [[]]
  | b :: rest =>
    let r := splitByte sep rest
    if b = sep then [] :: r
    else
      match r with
      | [] => [[b]]
      | g :: gs => (b :: g) :: gs

/-- Parse the request line into method and path: exactly three space-separated
parts, a token method, a printable-ASCII path and an HTTP/1.x version. -/
def parseRequestLine (line : List Nat) : Option (String × String) :=
  match splitByte 32 line with
  | [m, p, v] =>
    if !m.isEmpty && m.all isTokenByte && !p.isEmpty && p.all (fun b => 33 ≤ b && b ≤ 126) &&
        (v == strToBytes "HTTP/1.1" || v == strToBytes "HTTP/1.0") then
      some (asciiStr m, asciiStr p)
    else none
  | _ => none

/-- Linear whitespace bytes surrounding a header value. -/
def isWsByte (b : Nat) : Bool :=
  b = 32 || b = 9

/-- Trim linear whitespace from both ends of a byte list. -/
def trimWs (bs : List Nat) : List Nat :=
  ((bs.dropWhile isWsByte).reverse.dropWhile isWsByte).reverse

/-- Parse one header line: a token name before the first colon, then the value
with surrounding linear whitespace trimmed. -/
def parseHeaderLine (line : List Nat) : Option HttpHeader :=
  let name := line.takeWhile (fun b => b != 58)
  if name.length = line.length then none
  else if !name.isEmpty && name.all isTokenByte then
    some ⟨asciiStr name, trimWs (line.drop (name.length + 1))⟩
  else none

/-- Parse the header lines, failing beyond the slot capacity. -/
def parseHeaderLines (cap : Nat) (ls : List (List Nat)) : Option (List HttpHeader) :=
  if ls.length ≤ cap then ls.mapM parseHeaderLine else none

/-- Modelled from the spec: the external `httparse` request parse at its
interface boundary (spec section 4.1): locate method, path and headers from the
request line and header block; a terminated header block is complete with the
offset where headers end, an unterminated one is incomplete, and a malformed
request line or header fails. -/
def httpParse (cap : Nat) (buf : List Nat) : ParsedReq :=
  let p := splitLines buf
  match p.2 with
  | none =>
    match p.1 with
    | [] => ⟨none, none, [], .incomplete⟩
    | l0 :: ls =>
      match parseRequestLine l0 with
      | none => ⟨none, none, [], .failed "invalid token"⟩
      | some (m, pa) =>
        match parseHeaderLines cap ls with
        | none => ⟨some m, some pa, [], .failed "invalid header"⟩
        | some hs => ⟨some m, some pa, hs, .incomplete⟩
  | some rest =>
    match p.1 with
    | [] => ⟨none, none, [], .failed "invalid token"⟩
    | l0 :: ls =>
      match parseRequestLine l0 with
      | none => ⟨none, none, [], .failed "invalid token"⟩
      | some (m, pa) =>
        match parseHeaderLines cap ls with
        | none => ⟨some m, some pa, [], .failed "invalid header"⟩
        | some hs => ⟨some m, some pa, hs, .complete (buf.length - rest.length)⟩

/-- The `Request` struct of `server.rs`. -/
structure Request where
  headers : List HttpHeader
  method : Option String
  path : Option String
  header_offset : Nat
  buffer : List Nat
deriving DecidableEq

/-- `Request::new` of `server.rs`: on a complete parse the header offset is the
byte offset where headers end; on an incomplete (`Partial`) parse it falls back
to `req.headers.len()`, the declared slot capacity of the header array
(`capacity`, 16 at the call site); a parse error fails with the original's
message (source typo preserved). -/
def Request.new (capacity : Nat) (p : ParsedReq) (buffer : List Nat) : Except String Request :=
  match p.status with
  | .complete header_offset => .ok ⟨p.headers, p.method, p.path, header_offset, buffer⟩
  | .incomplete => .ok ⟨p.headers, p.method, p.path, capacity, buffer⟩
  | .failed e => .error (String.append "Could not parse header lenght: " e)

/-- Outcome of `Request::body`: the decoded payload, a body error, or a Rust
panic from the out-of-range body slice. -/
inductive BodyResult where
  | ok (d : EditRequestData)
  | err (e : String)
  | panicked (msg : String)
deriving DecidableEq

/-- Lowercase one ASCII letter. -/
def asciiLowerChar (c : Char) : Char :=
  if 65 ≤ c.toNat ∧ c.toNat ≤ 90 then Char.ofNat (c.toNat + 32) else c

/-- Embedding of Rust's `str::to_lowercase` as used on header names; the
header names produced by the parse are ASCII tokens, on which Unicode and
ASCII lowercasing agree. -/
def asciiLower (s : String) : String :=
  String.mk (s.data.map asciiLowerChar)

/-- `Request::body` of `server.rs`: find the `Content-Length` header
(case-insensitively, first match), read it as UTF-8 then as a number, slice
`buffer[header_offset .. header_offset + length]` (out of range panics, as in
Rust), decode the slice as UTF-8 and parse it as JSON. -/
def Request.body (req : Request) : BodyResult :=
  match req.headers.find? (fun h => asciiLower h.name == "content-length") with
  | none => .err "'Content-Length' header is missing"
  | some h =>
    match utf8Decode h.value with
    | none => .err "'Content-Length' header is not valid UTF-8"
    | some vs =>
      match parseUsize vs with
      | none => .err "'Content-Length' header is not a valid number"
      | some body_length =>
        let body_start := req.header_offset
        let body_end := body_start + body_length
        if body_end ≤ req.buffer.length then
          match utf8Decode ((req.buffer.drop body_start).take body_length) with
          | none => .err "ReqParser body is not valid UTF-8"
          | some body_str =>
            match jsonDecodeEdit body_str with
            | none => .err "ReqParser body is not valid JSON"
            | some d => .ok d
        else .panicked "range end index out of bounds"

/-- The `/start` arm of `Request::route`: decode on, clear the cut log, decode
the body, block for the first frame, and prefix the response content. -/
def routeStart (req : Request) (ctx : Context) : RouteOut :=
  match ctx.decode_handlers.decode_on with
  | .error e => .err e ctx
  | .ok dh =>
    let ctx1 : Context := { ctx with decode_handlers := dh, cut_log := CutLog.clear ctx.cut_log }
    match req.body with
    | .panicked m => .panicked m ctx1
    | .err e => .err e ctx1
    | .ok d =>
      match d.wait_for_first_frame ctx1 with
      | .ok resp c =>
        .ok { resp with content := String.append "Started decoding. " resp.content } c
      | out => out

/-- The `/stop` arm of `Request::route`: decode off, decode the body, attempt
to log a trailing edit, and prefix the response content. -/
def routeStop (req : Request) (ctx : Context) : RouteOut :=
  match ctx.decode_handlers.decode_off with
  | .error e => .err e ctx
  | .ok dh =>
    let ctx1 : Context := { ctx with decode_handlers := dh }
    match req.body with
    | .panicked m => .panicked m ctx1
    | .err e => .err e ctx1
    | .ok d =>
      match d.try_log_edit ctx1 with
      | (.error e, ctx2) => .err e ctx2
      | (.ok resp, ctx2) =>
        .ok { resp with content := String.append "Stopped decoding with " resp.content } ctx2

/-- The `/log` arm of `Request::route`: decode the body and log an edit. -/
def routeLog (req : Request) (ctx : Context) : RouteOut :=
  match req.body with
  | .panicked m => .panicked m ctx
  | .err e => .err e ctx
  | .ok d =>
    match d.try_log_edit ctx with
    | (.error e, ctx2) => .err e ctx2
    | (.ok resp, ctx2) => .ok resp ctx2

/-- `Request::route` of `server.rs`: dispatch `POST /start`, `POST /stop` and
`POST /log`; any other method or path yields the not-found response. -/
def Request.route (req : Request) (ctx : Context) : RouteOut :=
  if req.method = some "POST" then
    if req.path = some "/start" then routeStart req ctx
    else if req.path = some "/stop" then routeStop req ctx
    else if req.path = some "/log" then routeLog req ctx
    else .ok not_found ctx
  else .ok not_found ctx

/-- One TCP connection as seen by `handle_connection`: a possible read error
from `fill_buf`, the buffered request bytes, and a possible write error from
`write_all`. -/
structure Conn where
  readErr : Option String
  bytes : List Nat
  writeErr : Option String
deriving DecidableEq

/-- Outcome of `handle_connection`: response bytes written, an error before
anything was written, a write failure (with the serialized bytes that were
attempted), a process panic, or suspension on the blocking receive. -/
inductive ConnResult where
  | wrote (bytes : String) (c : Context)
  | errBeforeWrite (e : String) (c : Context)
  | errOnWrite (e : String) (attempted : String) (c : Context)
  | panicked (m : String)
  | blocked (c : Context)
deriving DecidableEq

/-- Serialize a response and write it to the connection. -/
def finishConn (conn : Conn) (resp : Response) (c : Context) : ConnResult :=
  match resp.parse_to_json with
  | .error e => .errBeforeWrite e c
  | .ok r2 =>
    let s := (SerializedResponse.ofResponse r2).value
    match conn.writeErr with
    | some e => .errOnWrite e s c
    | none => .wrote s c

/-- `Server::handle_connection` of `server.rs`: read the buffer, parse the
request with a 16-slot header array, route it (a routing error is logged and
replaced by `server_err()`), serialize the response to JSON and write it.  Read
and parse errors propagate before any response is produced. -/
def handle_connection (conn : Conn) (ctx : Context) : ConnResult :=
  match conn.readErr with
  | some e => .errBeforeWrite e ctx
  | none =>
    match Request.new 16 (httpParse 16 conn.bytes) conn.bytes with
    | .error e => .errBeforeWrite e ctx
    | .ok req =>
      match req.route ctx with
      | .blocked c => .blocked c
      | .panicked m _ => .panicked m
      | .ok resp c => finishConn conn resp c
      | .err _ c => finishConn conn server_err c

/-- Final state of the accept loop of `Server::listen`: the incoming list was
exhausted, an accept error propagated out of the loop, the loop hung on the
blocking receive, or the process died on a panic. -/
inductive ListenOut where
  | finished (c : Context)
  | acceptErr (e : String) (c : Context)
  | hung (c : Context)
  | died (m : String)
deriving DecidableEq

/-- The accept loop of `Server::listen` over a list of accept outcomes: an
accept error propagates out of the loop via the `?` on the incoming stream; a
connection whose handling fails is logged and the loop continues. -/
def listenLoop : List (Except String Conn) → Context → List ConnResult × ListenOut
  | [], ctx => ([], .finished ctx)
  | Except.error e :: _, ctx => ([], .acceptErr e ctx)
  | Except.ok conn :: rest, ctx =>
    match handle_connection conn ctx with
    | .blocked c => ([ConnResult.blocked c], .hung c)
    | .panicked m => ([ConnResult.panicked m], .died m)
    | .wrote s c =>
      let pr := listenLoop rest c
      (ConnResult.wrote s c :: pr.1, pr.2)
    | .errBeforeWrite e c =>
      let pr := listenLoop rest c
      (ConnResult.errBeforeWrite e c :: pr.1, pr.2)
    | .errOnWrite e s c =>
      let pr := listenLoop rest c
      (ConnResult.errOnWrite e s c :: pr.1, pr.2)

/-! Lemmas: the JSON string codec round-trips. -/

theorem hexCharVal_hexDigitChar : ∀ m < 16, hexCharVal (hexDigitChar m) = some m := by
  decide

theorem jsonEscapeList_cons (c : Char) (cs : List Char) :
    jsonEscapeList (c :: cs) = List.append (jsonEscapeChar c) (jsonEscapeList cs) := rfl

theorem jsonUnescape_quote (l : List Char) : jsonUnescape ('"' :: l) = some ([], l) := by
  rw [jsonUnescape.eq_def]; simp

theorem jsonUnescape_plain (c : Char) (h1 : ¬c = '"') (h2 : ¬c = '\\') (l : List Char) :
    jsonUnescape (c :: l) = (fun p => (c :: p.1, p.2)) <$> jsonUnescape l := by
  rw [jsonUnescape.eq_def]; simp [h1, h2]

theorem jsonUnescape_escQuote (l : List Char) :
    jsonUnescape ('\\' :: '"' :: l) = (fun p => ('"' :: p.1, p.2)) <$> jsonUnescape l := by
  rw [jsonUnescape.eq_def]; simp

theorem jsonUnescape_escBackslash (l : List Char) :
    jsonUnescape ('\\' :: '\\' :: l) = (fun p => ('\\' :: p.1, p.2)) <$> jsonUnescape l := by
  rw [jsonUnescape.eq_def]; simp

theorem jsonUnescape_escB (l : List Char) :
    jsonUnescape ('\\' :: 'b' :: l) =
      (fun p => (Char.ofNat 8 :: p.1, p.2)) <$> jsonUnescape l := by
  rw [jsonUnescape.eq_def]; simp

theorem jsonUnescape_escT (l : List Char) :
    jsonUnescape ('\\' :: 't' :: l) =
      (fun p => (Char.ofNat 9 :: p.1, p.2)) <$> jsonUnescape l := by
  rw [jsonUnescape.eq_def]; simp

theorem jsonUnescape_escN (l : List Char) :
    jsonUnescape ('\\' :: 'n' :: l) =
      (fun p => (Char.ofNat 10 :: p.1, p.2)) <$> jsonUnescape l := by
  rw [jsonUnescape.eq_def]; simp

theorem jsonUnescape_escF (l : List Char) :
    jsonUnescape ('\\' :: 'f' :: l) =
      (fun p => (Char.ofNat 12 :: p.1, p.2)) <$> jsonUnescape l := by
  rw [jsonUnescape.eq_def]; simp

theorem jsonUnescape_escR (l : List Char) :
    jsonUnescape ('\\' :: 'r' :: l) =
      (fun p => (Char.ofNat 13 :: p.1, p.2)) <$> jsonUnescape l := by
  rw [jsonUnescape.eq_def]; simp

theorem jsonUnescape_u (d1 d2 : Char) (v1 v2 : Nat) (h1 : hexCharVal d1 = some v1)
    (h2 : hexCharVal d2 = some v2) (l : List Char) :
    jsonUnescape ('\\' :: 'u' :: '0' :: '0' :: d1 :: d2 :: l) =
      (fun p => (Char.ofNat (((0 * 16 + 0) * 16 + v1) * 16 + v2) :: p.1, p.2)) <$>
        jsonUnescape l := by
  have h0 : hexCharVal '0' = some 0 := rfl
  rw [jsonUnescape.eq_def]; simp [h0, h1, h2]

theorem jsonUnescape_jsonEscapeList (cs rest : List Char) :
    jsonUnescape (List.append (jsonEscapeList cs) ('"' :: rest)) = some (cs, rest) := by
  induction cs with
  | nil => simp [jsonEscapeList, jsonUnescape_quote]
  | cons c cs ih =>
    rw [jsonEscapeList_cons]
    simp only [List.append_eq, List.append_assoc] at *
    by_cases hq : c = '"'
    · subst hq
      rw [show jsonEscapeChar '"' = ['\\', '"'] from rfl]
      simp [jsonUnescape_escQuote, ih]
    by_cases hb : c = '\\'
    · subst hb
      rw [show jsonEscapeChar '\\' = ['\\', '\\'] from rfl]
      simp [jsonUnescape_escBackslash, ih]
    by_cases hge : 32 ≤ c.toNat
    · rw [show jsonEscapeChar c = [c] by simp [jsonEscapeChar, hq, hb, hge]]
      simp [jsonUnescape_plain c hq hb, ih]
    push_neg at hge
    by_cases h8 : c.toNat = 8
    · have hc : c = Char.ofNat 8 := by rw [← h8, Char.ofNat_toNat]
      subst hc
      rw [show jsonEscapeChar (Char.ofNat 8) = ['\\', 'b'] from rfl]
      simp [jsonUnescape_escB, ih]
    by_cases h9 : c.toNat = 9
    · have hc : c = Char.ofNat 9 := by rw [← h9, Char.ofNat_toNat]
      subst hc
      rw [show jsonEscapeChar (Char.ofNat 9) = ['\\', 't'] from rfl]
      simp [jsonUnescape_escT, ih]
    by_cases h10 : c.toNat = 10
    · have hc : c = Char.ofNat 10 := by rw [← h10, Char.ofNat_toNat]
      subst hc
      rw [show jsonEscapeChar (Char.ofNat 10) = ['\\', 'n'] from rfl]
      simp [jsonUnescape_escN, ih]
    by_cases h12 : c.toNat = 12
    · have hc : c = Char.ofNat 12 := by rw [← h12, Char.ofNat_toNat]
      subst hc
      rw [show jsonEscapeChar (Char.ofNat 12) = ['\\', 'f'] from rfl]
      simp [jsonUnescape_escF, ih]
    by_cases h13 : c.toNat = 13
    · have hc : c = Char.ofNat 13 := by rw [← h13, Char.ofNat_toNat]
      subst hc
      rw [show jsonEscapeChar (Char.ofNat 13) = ['\\', 'r'] from rfl]
      simp [jsonUnescape_escR, ih]
    · have hesc : jsonEscapeChar c =
          ['\\', 'u', '0', '0', hexDigitChar (c.toNat / 16), hexDigitChar (c.toNat % 16)] := by
        simp only [jsonEscapeChar, hq, hb, if_false]
        rw [if_neg (by omega), if_neg (by omega), if_neg (by omega), if_neg (by omega),
          if_neg (by omega), if_neg (by omega)]
      rw [hesc]
      simp only [List.cons_append, List.nil_append]
      have hd1 : hexCharVal (hexDigitChar (c.toNat / 16)) = some (c.toNat / 16) :=
        hexCharVal_hexDigitChar _ (by omega)
      have hd2 : hexCharVal (hexDigitChar (c.toNat % 16)) = some (c.toNat % 16) :=
        hexCharVal_hexDigitChar _ (Nat.mod_lt _ (by omega))
      rw [jsonUnescape_u _ _ _ _ hd1 hd2, ih]
      have hval : c.toNat / 16 * 16 + c.toNat % 16 = c.toNat := by omega
      simp [hval, Char.ofNat_toNat]

theorem jsonUnquote_jsonQuote (s : String) : jsonUnquoteString (jsonQuoteString s) = some s := by
  obtain ⟨data⟩ := s
  have h : (jsonQuoteString (String.mk data)).data =
      '"' :: List.append (jsonEscapeList data) ('"' :: []) := by
    simp [jsonQuoteString]
  simp only [jsonUnquoteString, h, jsonUnescape_jsonEscapeList]

/-! Concrete fixtures used by the witnesses and counterexamples. -/

/-- An idle session context: empty cut log, decode off, no pending frames, no
configured collaborator failures, empty EDL. -/
def ctxEmpty : Context := ⟨[], ⟨false, [], none, none, none⟩, ⟨[], none⟩⟩

/-- A well-formed Edit Request Payload body. -/
def payloadBody : String :=
  "\x7b\"edit_type\":\"CUT\",\"source_tape\":\"A001\",\"av_channel\":\"BOTH\"\x7d"

/-- The payload decoded from `payloadBody`. -/
def samplePayload : EditRequestData := ⟨"CUT", "A001", AVChannels.both⟩

/-- A parsed request carrying `payloadBody`, for a given path. -/
def mkReq (p : String) : Request :=
  ⟨[⟨"Content-Length", strToBytes "60"⟩], some "POST", some p, 0, strToBytes payloadBody⟩

/-- A buffer whose header block does not terminate. -/
def partialBuf : List Nat := strToBytes "POST /log HTTP/1.1\r\nContent-Le"

/-! Claim C10. -/

/-- C10: for every Response content string, encoding the Response JSON-quotes
the content, computes `Content-Length` over the already-quoted content, and
parsing the quoted content back as a JSON string recovers the original content
exactly, including quotes, backslashes and control characters. -/
theorem c10_response_encode_roundtrip (r : Response) :
    ∃ r2, r.parse_to_json = Except.ok r2 ∧
      r2.content = jsonQuoteString r.content ∧
      r2.status_line = r.status_line ∧
      (SerializedResponse.ofResponse r2).value =
        String.append r.status_line
          (String.append "\r\nContent-Type: application/json\r\nContent-Length: "
            (String.append (toString (jsonQuoteString r.content).utf8ByteSize)
              (String.append "\r\n\r\n" (jsonQuoteString r.content)))) ∧
      jsonUnquoteString (jsonQuoteString r.content) = some r.content :=
  ⟨_, rfl, rfl, rfl, rfl, jsonUnquote_jsonQuote r.content⟩

/-! Claim C9. -/

/-- C9: for every raw request buffer on which header parsing is incomplete, the
decoder does not fail: `Request::new` succeeds and sets the header offset to
the declared header-slot capacity (16 slots at the call site) instead of a byte
offset. -/
theorem c9_incomplete_parse_offset_capacity (buf : List Nat)
    (h : (httpParse 16 buf).status = ParseStatus.incomplete) :
    Request.new 16 (httpParse 16 buf) buf =
      Except.ok ⟨(httpParse 16 buf).headers, (httpParse 16 buf).method,
        (httpParse 16 buf).path, 16, buf⟩ := by
  unfold Request.new
  rw [h]

/-- Witness for C9 at a concrete unterminated buffer. -/
theorem c9_incomplete_parse_offset_capacity_witness :
    (httpParse 16 partialBuf).status = ParseStatus.incomplete ∧
    Request.new 16 (httpParse 16 partialBuf) partialBuf =
      Except.ok ⟨(httpParse 16 partialBuf).headers, (httpParse 16 partialBuf).method,
        (httpParse 16 partialBuf).path, 16, partialBuf⟩ :=
  ⟨rfl, c9_incomplete_parse_offset_capacity partialBuf rfl⟩

/-! More fixtures. -/

/-- A session context with decode on, no pending frames and no failures. -/
def ctxDecodeOn : Context := ⟨[], ⟨true, [], none, none, none⟩, ⟨[], none⟩⟩

/-- A Cut Record logged by an earlier request. -/
def oldRec : CutRecord := ⟨⟨"00:00:01:00"⟩, "CUT", "A1", AVChannels.both⟩

/-- Wire bytes of a well-formed `POST /log` request. -/
def logWire : List Nat :=
  strToBytes (String.append "POST /log HTTP/1.1\r\nContent-Length: 60\r\n\r\n" payloadBody)

/-- The parsed form of `logWire`. -/
def wireReq : Request :=
  ⟨[⟨"Content-Length", strToBytes "60"⟩], some "POST", some "/log", 42, logWire⟩

/-! Claim C4. -/

/-- C4: for every well-formed `POST /start` request, the handler turns decode
on, empties the cut log before any new record is added, blocks for one frame
and appends exactly one Cut Record once it is received, so the cut log is
exactly the one new record afterwards. -/
theorem c4_start_single_record (hs : List HttpHeader) (off : Nat) (buf : List Nat)
    (log : CutLog) (dh : DecodeHandlers) (edl : Edl) (d : EditRequestData)
    (f : Frame) (fs : List Frame)
    (hbody : Request.body ⟨hs, some "POST", some "/start", off, buf⟩ = BodyResult.ok d)
    (hon : dh.onErr = none) (hrecv : dh.recvErr = none) (hframes : dh.frames = f :: fs) :
    Request.route ⟨hs, some "POST", some "/start", off, buf⟩ ⟨log, dh, edl⟩ =
      RouteOut.ok
        ⟨String.append "Started decoding. "
            (rustDebugString (String.append "timecode logged: " (rustDebugString f.tc))),
          "HTTP/1.1 200 OK"⟩
        ⟨[⟨f, d.edit_type, d.source_tape, d.av_channel⟩],
          { dh with isOn := true, frames := fs }, edl⟩ := by
  simp [Request.route, routeStart, DecodeHandlers.decode_on, hon, CutLog.clear, hbody,
    EditRequestData.wait_for_first_frame, DecodeHandlers.recv_frame, hrecv, hframes,
    CutLog.push, Response.ofString]

/-- Witness for C4 at a concrete request and context with a non-empty prior
cut log, one pending frame and decode initially off. -/
theorem c4_start_single_record_witness :
    Request.route (mkReq "/start")
        ⟨[oldRec], ⟨false, [⟨"00:00:10:00"⟩], none, none, none⟩, ⟨[], none⟩⟩ =
      RouteOut.ok
        ⟨String.append "Started decoding. "
            (rustDebugString (String.append "timecode logged: " (rustDebugString "00:00:10:00"))),
          "HTTP/1.1 200 OK"⟩
        ⟨[⟨⟨"00:00:10:00"⟩, "CUT", "A001", AVChannels.both⟩],
          ⟨true, [], none, none, none⟩, ⟨[], none⟩⟩ :=
  c4_start_single_record _ _ _ _ _ _ samplePayload _ _ rfl rfl rfl rfl

/-! Claim C8. -/

/-- C8: for every `POST /start` request whose body decoding fails, the request
reports an error, but the decode handle has already been switched on and the
cut log already cleared before the body was decoded, and neither side effect is
rolled back on the error path. -/
theorem c8_start_side_effects_persist (hs : List HttpHeader) (off : Nat) (buf : List Nat)
    (log : CutLog) (dh : DecodeHandlers) (edl : Edl) (e : String)
    (hon : dh.onErr = none)
    (hbody : Request.body ⟨hs, some "POST", some "/start", off, buf⟩ = BodyResult.err e) :
    Request.route ⟨hs, some "POST", some "/start", off, buf⟩ ⟨log, dh, edl⟩ =
      RouteOut.err e ⟨[], { dh with isOn := true }, edl⟩ := by
  simp [Request.route, routeStart, DecodeHandlers.decode_on, hon, CutLog.clear, hbody]

/-- Witness for C8 at a concrete request with no `Content-Length` header. -/
theorem c8_start_side_effects_persist_witness :
    Request.route ⟨[], some "POST", some "/start", 0, []⟩
        ⟨[oldRec], ⟨false, [], none, none, none⟩, ⟨[], none⟩⟩ =
      RouteOut.err "'Content-Length' header is missing"
        ⟨[], ⟨true, [], none, none, none⟩, ⟨[], none⟩⟩ :=
  c8_start_side_effects_persist _ _ _ _ _ _ _ rfl rfl

/-! Claim C1. -/

/-- C1: for every successful `POST /log` request (a frame is received and no
collaborator error occurs), the handler pushes exactly one new Cut Record, pops
exactly one record (the oldest), and writes exactly one Edit built from the
popped previous record and the peeked newest record, so the cut log length is
unchanged and, from the reachable one-record log state, the Edit pairs the two
most-recently-logged Cut Records. -/
theorem c1_log_pairs_recent_cuts (hs : List HttpHeader) (off : Nat) (buf : List Nat)
    (r : CutRecord) (dh : DecodeHandlers) (edl : Edl)
    (d : EditRequestData) (f : Frame) (fs : List Frame)
    (hbody : Request.body ⟨hs, some "POST", some "/log", off, buf⟩ = BodyResult.ok d)
    (hrecv : dh.recvErr = none) (hframes : dh.frames = f :: fs) (hwrite : edl.writeErr = none) :
    Request.route ⟨hs, some "POST", some "/log", off, buf⟩ ⟨[r], dh, edl⟩ =
      RouteOut.ok (Response.ofString "edit logged")
        ⟨[⟨f, d.edit_type, d.source_tape, d.av_channel⟩], { dh with frames := fs },
          { edl with written :=
              List.append edl.written [⟨r, ⟨f, d.edit_type, d.source_tape, d.av_channel⟩⟩] }⟩ := by
  simp [Request.route, routeLog, hbody, EditRequestData.try_log_edit,
    EditRequestData.parse_edit_from_log, DecodeHandlers.try_recv_frame, hrecv, hframes,
    CutLog.push, CutLog.pop, CutLog.front, Edit.from_cuts, Edl.write_from_edit, hwrite]

/-- Witness for C1 at a concrete request, one prior record and one pending
frame. -/
theorem c1_log_pairs_recent_cuts_witness :
    Request.route (mkReq "/log")
        ⟨[oldRec], ⟨true, [⟨"00:00:20:00"⟩], none, none, none⟩, ⟨[], none⟩⟩ =
      RouteOut.ok (Response.ofString "edit logged")
        ⟨[⟨⟨"00:00:20:00"⟩, "CUT", "A001", AVChannels.both⟩], ⟨true, [], none, none, none⟩,
          ⟨[⟨oldRec, ⟨⟨"00:00:20:00"⟩, "CUT", "A001", AVChannels.both⟩⟩], none⟩⟩ :=
  c1_log_pairs_recent_cuts _ _ _ oldRec _ _ samplePayload _ _ rfl rfl rfl rfl

/-! Claim C3, with two helper lemmas. -/

/-- The edit-pairing step never changes the decode on/off switch. -/
theorem parse_edit_from_log_isOn (d : EditRequestData) (c : Context) :
    ((d.parse_edit_from_log c).2).decode_handlers.isOn = c.decode_handlers.isOn := by
  unfold EditRequestData.parse_edit_from_log DecodeHandlers.try_recv_frame
  cases hr : c.decode_handlers.recvErr with
  | some e => simp
  | none =>
    cases hf : c.decode_handlers.frames with
    | nil => simp
    | cons f fs =>
      simp only []
      split <;> (try split) <;> (try split) <;> simp

/-- The edit-logging step never changes the decode on/off switch. -/
theorem try_log_edit_isOn (d : EditRequestData) (c : Context) :
    ((d.try_log_edit c).2).decode_handlers.isOn = c.decode_handlers.isOn := by
  unfold EditRequestData.try_log_edit
  have h := parse_edit_from_log_isOn d c
  rcases hp : d.parse_edit_from_log c with ⟨res, ctx2⟩
  rw [hp] at h
  match res with
  | .ok edit =>
    simp only []
    cases hw : ctx2.edl.write_from_edit edit with
    | error e => simpa using h
    | ok p => obtain ⟨txt, edl2⟩ := p; simpa using h
  | .error (DecodeErr.noVal m) => simpa using h
  | .error (DecodeErr.other e) => simpa using h

/-- C3: for every `POST /stop` request whose `decode_off` call itself succeeds,
decode has been turned off in the resulting session context whatever the
outcome of the subsequent body decoding and edit-logging step. -/
theorem c3_stop_turns_decode_off (hs : List HttpHeader) (off : Nat) (buf : List Nat)
    (ctx : Context) (hoff : ctx.decode_handlers.offErr = none) :
    (Request.route ⟨hs, some "POST", some "/stop", off, buf⟩ ctx).ctx.decode_handlers.isOn =
      false := by
  simp only [Request.route]
  norm_num
  unfold routeStop
  cases ho : ctx.decode_handlers.decode_off with
  | error e =>
    unfold DecodeHandlers.decode_off at ho
    rw [hoff] at ho
    simp at ho
  | ok dh2 =>
    have hdh2 : dh2.isOn = false := by
      unfold DecodeHandlers.decode_off at ho
      rw [hoff] at ho
      simp at ho
      rw [← ho]
    simp only []
    cases hb : Request.body ⟨hs, some "POST", some "/stop", off, buf⟩ with
    | panicked m => simp [RouteOut.ctx, hdh2]
    | err e => simp [RouteOut.ctx, hdh2]
    | ok d =>
      simp only []
      have h := try_log_edit_isOn d { ctx with decode_handlers := dh2 }
      rcases ht : d.try_log_edit { ctx with decode_handlers := dh2 } with ⟨res, ctx2⟩
      rw [ht] at h
      simp at h
      rw [hdh2] at h
      match res with
      | .ok resp => simp [RouteOut.ctx, h]
      | .error e2 => simp [RouteOut.ctx, h]

/-- Witness for C3 at a concrete `/stop` request on a decode-on context. -/
theorem c3_stop_turns_decode_off_witness :
    (Request.route (mkReq "/stop") ctxDecodeOn).ctx.decode_handlers.isOn = false :=
  c3_stop_turns_decode_off _ _ _ ctxDecodeOn rfl

/-! Claim C2. -/

/-- Counterexample to C2: at a concrete `POST /stop` request with no frame
available, the handler prefixes the friendly text with "Stopped decoding with ",
so the response content is not exactly the friendly text the claim requires. -/
theorem c2_counterexample_stop_prefixes :
    Request.route (mkReq "/stop") ctxDecodeOn =
      RouteOut.ok
        ⟨"Stopped decoding with Unable to get timecode. Make sure source is streaming and decoding has started.",
          "HTTP/1.1 200 OK"⟩
        ⟨[], ⟨false, [], none, none, none⟩, ⟨[], none⟩⟩ ∧
    "Stopped decoding with Unable to get timecode. Make sure source is streaming and decoding has started." ≠
      "Unable to get timecode. Make sure source is streaming and decoding has started." :=
  ⟨rfl, by decide⟩

/-- C2 (amended): when the non-blocking receive reports no frame, `/log`
responds with a success status line and content exactly the friendly text,
while `/stop` responds with a success status line and the friendly text
prefixed by "Stopped decoding with "; neither surfaces an error status. -/
theorem c2_noval_friendly_response (hs : List HttpHeader) (off : Nat) (buf : List Nat)
    (ctx : Context) (d : EditRequestData)
    (hrecv : ctx.decode_handlers.recvErr = none) (hframes : ctx.decode_handlers.frames = []) :
    (Request.body ⟨hs, some "POST", some "/log", off, buf⟩ = BodyResult.ok d →
      Request.route ⟨hs, some "POST", some "/log", off, buf⟩ ctx =
        RouteOut.ok frame_unavailable ctx) ∧
    (Request.body ⟨hs, some "POST", some "/stop", off, buf⟩ = BodyResult.ok d →
      ctx.decode_handlers.offErr = none →
      Request.route ⟨hs, some "POST", some "/stop", off, buf⟩ ctx =
        RouteOut.ok
          ⟨String.append "Stopped decoding with " frame_unavailable.content, "HTTP/1.1 200 OK"⟩
          { ctx with decode_handlers := { ctx.decode_handlers with isOn := false } }) ∧
    frame_unavailable =
      ⟨"Unable to get timecode. Make sure source is streaming and decoding has started.",
        "HTTP/1.1 200 OK"⟩ := by
  refine ⟨fun hbody => ?_, fun hbody hoff => ?_, rfl⟩
  · simp [Request.route, routeLog, hbody, EditRequestData.try_log_edit,
      EditRequestData.parse_edit_from_log, DecodeHandlers.try_recv_frame, hrecv, hframes]
  · simp [Request.route, routeStop, DecodeHandlers.decode_off, hoff, hbody,
      EditRequestData.try_log_edit, EditRequestData.parse_edit_from_log,
      DecodeHandlers.try_recv_frame, hrecv, hframes, frame_unavailable]

/-- Witness for the amended C2, both routes, at concrete requests on a
frame-less context. -/
theorem c2_noval_friendly_response_witness :
    Request.route (mkReq "/log") ctxDecodeOn = RouteOut.ok frame_unavailable ctxDecodeOn ∧
    Request.route (mkReq "/stop") ctxDecodeOn =
      RouteOut.ok
        ⟨String.append "Stopped decoding with " frame_unavailable.content, "HTTP/1.1 200 OK"⟩
        { ctxDecodeOn with
            decode_handlers := { ctxDecodeOn.decode_handlers with isOn := false } } :=
  ⟨(c2_noval_friendly_response _ _ _ ctxDecodeOn samplePayload rfl rfl).1 rfl,
    (c2_noval_friendly_response _ _ _ ctxDecodeOn samplePayload rfl rfl).2.1 rfl rfl⟩

/-! Claim C7. -/

/-- A request with an invalid JSON body, for a given path. -/
def badBodyReq (p : String) : Request :=
  ⟨[⟨"Content-Length", strToBytes "7"⟩], some "POST", some p, 0, strToBytes "notjson"⟩

/-- A context with one logged record and decode off. -/
def ctxOneRec : Context := ⟨[oldRec], ⟨false, [], none, none, none⟩, ⟨[], none⟩⟩

/-- Counterexample to C7: at a concrete `POST /start` request with an invalid
JSON body, the request does reach the routing logic: decode has been toggled on
and the cut log cleared before the failure surfaces. -/
theorem c7_counterexample_mutation_before_body :
    Request.route (badBodyReq "/start") ctxOneRec =
      RouteOut.err "ReqParser body is not valid JSON"
        ⟨[], ⟨true, [], none, none, none⟩, ⟨[], none⟩⟩ ∧
    ctxOneRec.cut_log ≠ [] ∧ ctxOneRec.decode_handlers.isOn = false :=
  ⟨rfl, by decide, rfl⟩

/-- C7 (amended): a body that is not a valid Edit Request Payload fails the
request with an error before any Cut Record is pushed or frame received, but
only after route dispatch: `/start` has already turned decode on and cleared
the cut log, `/stop` has already turned decode off, and `/log` mutates nothing. -/
theorem c7_body_error_after_dispatch (hs : List HttpHeader) (off : Nat) (buf : List Nat)
    (ctx : Context) (e : String) :
    (Request.body ⟨hs, some "POST", some "/log", off, buf⟩ = BodyResult.err e →
      Request.route ⟨hs, some "POST", some "/log", off, buf⟩ ctx = RouteOut.err e ctx) ∧
    (ctx.decode_handlers.onErr = none →
      Request.body ⟨hs, some "POST", some "/start", off, buf⟩ = BodyResult.err e →
      Request.route ⟨hs, some "POST", some "/start", off, buf⟩ ctx =
        RouteOut.err e ⟨[], { ctx.decode_handlers with isOn := true }, ctx.edl⟩) ∧
    (ctx.decode_handlers.offErr = none →
      Request.body ⟨hs, some "POST", some "/stop", off, buf⟩ = BodyResult.err e →
      Request.route ⟨hs, some "POST", some "/stop", off, buf⟩ ctx =
        RouteOut.err e
          { ctx with decode_handlers := { ctx.decode_handlers with isOn := false } }) := by
  refine ⟨fun hbody => ?_, fun hon hbody => ?_, fun hoff hbody => ?_⟩
  · simp [Request.route, routeLog, hbody]
  · simp [Request.route, routeStart, DecodeHandlers.decode_on, hon, CutLog.clear, hbody]
  · simp [Request.route, routeStop, DecodeHandlers.decode_off, hoff, hbody]

/-- Witness for the amended C7 at concrete invalid-JSON requests. -/
theorem c7_body_error_after_dispatch_witness :
    Request.route (badBodyReq "/log") ctxOneRec =
      RouteOut.err "ReqParser body is not valid JSON" ctxOneRec ∧
    Request.route (badBodyReq "/start") ctxOneRec =
      RouteOut.err "ReqParser body is not valid JSON"
        ⟨[], { ctxOneRec.decode_handlers with isOn := true }, ctxOneRec.edl⟩ ∧
    Request.route (badBodyReq "/stop") ctxOneRec =
      RouteOut.err "ReqParser body is not valid JSON"
        { ctxOneRec with
            decode_handlers := { ctxOneRec.decode_handlers with isOn := false } } :=
  ⟨(c7_body_error_after_dispatch _ _ _ ctxOneRec _).1 rfl,
    (c7_body_error_after_dispatch _ _ _ ctxOneRec _).2.1 rfl rfl,
    (c7_body_error_after_dispatch _ _ _ ctxOneRec _).2.2 rfl rfl⟩

/-! Claim C5. -/

/-- A connection whose bytes hold a malformed request line. -/
def badLineConn : Conn := ⟨none, strToBytes "GARBAGE\r\n\r\n", none⟩

/-- Counterexample to C5: at a connection with a malformed request line, the
handler propagates the parse error before any response is produced, so no
500-equivalent "Failed to parse request" response is written to the socket. -/
theorem c5_counterexample_parse_error_writes_nothing :
    handle_connection badLineConn ctxEmpty =
      ConnResult.errBeforeWrite "Could not parse header lenght: invalid token" ctxEmpty ∧
    ∀ s c, handle_connection badLineConn ctxEmpty ≠ ConnResult.wrote s c := by
  refine ⟨rfl, fun s c h => ?_⟩
  rw [show handle_connection badLineConn ctxEmpty =
      ConnResult.errBeforeWrite "Could not parse header lenght: invalid token" ctxEmpty
    from rfl] at h
  exact ConnResult.noConfusion h

/-- C5 (amended): for every connection whose read succeeds and whose header
parse succeeds, a Response is always produced, always serialized (JSON-quoted
with the length over the quoted content) and then written: a routing success
writes the routed response and a routing failure writes the 500-equivalent
"Failed to parse request" response.  Header parse failures instead abort the
connection with only a local log. -/
theorem c5_response_always_serialized (conn : Conn) (ctx : Context) (req : Request)
    (hr : conn.readErr = none) (hw : conn.writeErr = none)
    (hreq : Request.new 16 (httpParse 16 conn.bytes) conn.bytes = Except.ok req) :
    (∀ resp c, Request.route req ctx = RouteOut.ok resp c →
      handle_connection conn ctx =
        ConnResult.wrote
          (SerializedResponse.ofResponse
            { resp with content := jsonQuoteString resp.content }).value c) ∧
    (∀ e c, Request.route req ctx = RouteOut.err e c →
      handle_connection conn ctx =
        ConnResult.wrote
          (SerializedResponse.ofResponse
            { server_err with content := jsonQuoteString server_err.content }).value c) ∧
    server_err = ⟨"Failed to parse request", "HTTP/1.1 500 INTERNAL SERVER ERROR"⟩ := by
  refine ⟨fun resp c hroute => ?_, fun e c hroute => ?_, rfl⟩ <;>
    simp [handle_connection, hr, hreq, hroute, finishConn, Response.parse_to_json, hw]

/-- Witness for the amended C5 at a concrete wire-level `/log` request. -/
theorem c5_response_always_serialized_witness :
    handle_connection ⟨none, logWire, none⟩ ctxDecodeOn =
      ConnResult.wrote
        (SerializedResponse.ofResponse
          { frame_unavailable with content := jsonQuoteString frame_unavailable.content }).value
        ctxDecodeOn :=
  (c5_response_always_serialized ⟨none, logWire, none⟩ ctxDecodeOn wireReq rfl rfl rfl).1
    frame_unavailable ctxDecodeOn rfl

/-! Claim C6. -/

/-- A connection carrying a well-formed `/log` request. -/
def goodConn : Conn := ⟨none, logWire, none⟩

/-- Counterexample to C6: an I/O error on accept propagates out of the accept
loop, so a subsequent perfectly handleable connection is never accepted. -/
theorem c6_counterexample_accept_error_stops_loop :
    listenLoop [Except.error "accept failed", Except.ok goodConn] ctxEmpty =
      ([], ListenOut.acceptErr "accept failed" ctxEmpty) ∧
    (∃ s c, handle_connection goodConn ctxEmpty = ConnResult.wrote s c) :=
  ⟨rfl, ⟨_, _, rfl⟩⟩

/-- C6 (amended): an I/O error on reading a request or writing a response
terminates only the current connection attempt and the accept loop continues
with the remaining connections; an accept error, however, terminates the loop
itself. -/
theorem c6_conn_errors_do_not_stop_loop (conn : Conn) (rest : List (Except String Conn))
    (ctx : Context) :
    (∀ e c, handle_connection conn ctx = ConnResult.errBeforeWrite e c →
      listenLoop (Except.ok conn :: rest) ctx =
        (ConnResult.errBeforeWrite e c :: (listenLoop rest c).1, (listenLoop rest c).2)) ∧
    (∀ e s c, handle_connection conn ctx = ConnResult.errOnWrite e s c →
      listenLoop (Except.ok conn :: rest) ctx =
        (ConnResult.errOnWrite e s c :: (listenLoop rest c).1, (listenLoop rest c).2)) ∧
    (∀ e, listenLoop (Except.error e :: rest) ctx = ([], ListenOut.acceptErr e ctx)) := by
  refine ⟨fun e c h => ?_, fun e s c h => ?_, fun e => rfl⟩ <;> simp [listenLoop, h]

/-- Witness for the amended C6: a connection whose read fails is logged and the
loop reaches the end of the incoming list. -/
theorem c6_conn_errors_do_not_stop_loop_witness :
    listenLoop [Except.ok ⟨some "read failed", [], none⟩] ctxEmpty =
      (ConnResult.errBeforeWrite "read failed" ctxEmpty :: (listenLoop [] ctxEmpty).1,
        (listenLoop [] ctxEmpty).2) :=
  (c6_conn_errors_do_not_stop_loop ⟨some "read failed", [], none⟩ [] ctxEmpty).1
    "read failed" ctxEmpty rfl

end EdlServer

